import Mathlib

/-!
Shallow embedding of the gesture drawing board (src/gesture_typing.py):
the finger-state classifier `detect_fingers_mediapipe`, the per-frame
gesture dispatch of the main loop `run`, and the stroke-continuity
renderer `draw_on_canvas` acting on a canvas modelled as a uniform base
fill plus a trace of raster primitives, together with theorems settling
the specification claims about them.
-/

namespace GestureBoard

/-- BGR color triple, as passed to the OpenCV drawing calls. -/
abbrev Color := ℕ × ℕ × ℕ

/-- Dark gray background fill (20, 20, 20) used by `init_canvas` and by the
erase branch of `draw_on_canvas`. -/
def backgroundColor : Color := (20, 20, 20)

/-- Raster primitives that `draw_on_canvas` emits onto the canvas: a filled
circle (cv2.circle with thickness -1) and a thick line segment (cv2.line). -/
inductive CanvasOp where
  | circle (center : ℤ × ℤ) (radius : ℕ) (color : Color)
  | line (p1 p2 : ℤ × ℤ) (color : Color) (thickness : ℕ)
  deriving DecidableEq

/-- The persistent canvas: its dimensions, the uniform base fill written by
`init_canvas`, and the trace of raster primitives applied since, oldest
first. -/
structure Canvas where
  width : ℕ
  height : ℕ
  base : Color
  ops : List CanvasOp
  deriving DecidableEq

/-- `init_canvas`: a fresh width-by-height surface uniformly filled with the
dark gray background, with no raster operations applied yet. -/
def init_canvas (w h : ℕ) : Canvas :=
  { width := w, height := h, base := backgroundColor, ops := [] }

/-- Squared distance from point p to the closed segment from a to b, used to
give the thick-line primitive a solid-coverage pixel semantics. -/
def sqDistToSeg (a b p : ℤ × ℤ) : ℚ :=
  let dx : ℚ := ((b.1 - a.1 : ℤ) : ℚ)
  let dy : ℚ := ((b.2 - a.2 : ℤ) : ℚ)
  let px : ℚ := ((p.1 - a.1 : ℤ) : ℚ)
  let py : ℚ := ((p.2 - a.2 : ℤ) : ℚ)
  let dd : ℚ := dx * dx + dy * dy
  if dd = 0 then px * px + py * py
  else
    let t : ℚ := max 0 (min 1 ((px * dx + py * dy) / dd))
    (px - t * dx) ^ 2 + (py - t * dy) ^ 2

/-- Solid-coverage pixel semantics of one raster primitive at pixel (x, y):
a filled circle covers the pixels within its radius, a thick line covers the
pixels within half its thickness of the segment. -/
def rasterOp (op : CanvasOp) (x y : ℕ) (c : Color) : Color :=
  match op with
  | CanvasOp.circle ctr r col =>
      if ((x : ℤ) - ctr.1) ^ 2 + ((y : ℤ) - ctr.2) ^ 2 ≤ (r : ℤ) ^ 2 then col else c
  | CanvasOp.line p1 p2 col t =>
      if sqDistToSeg p1 p2 ((x : ℤ), (y : ℤ)) ≤ ((t : ℚ) / 2) ^ 2 then col else c

/-- Color of pixel (x, y) of a canvas: the base fill transformed by the
raster trace. -/
def pixAt (cv : Canvas) (x y : ℕ) : Color :=
  cv.ops.foldl (fun c op => rasterOp op x y c) cv.base

/-- The two mode strings accepted by `draw_on_canvas`. -/
inductive DrawMode where
  | draw
  | erase
  deriving DecidableEq

/-- The drawing-relevant fields of the GestureDrawingBoard object. -/
structure BoardState where
  FINGERS_FOR_DRAW : ℕ
  FINGERS_FOR_ERASE : ℕ
  drawing_mode : Bool
  current_color : Color
  brush_size : ℕ
  eraser_size : ℕ
  canvas : Canvas
  last_draw_point : Option (ℤ × ℤ)
  last_erase_point : Option (ℤ × ℤ)
  deriving DecidableEq

/-- Squared Euclidean distance between two integer pixel points.  The source
compares math.sqrt of this quantity with 100; for integer inputs that
floating-point comparison is exact, so the embedding compares the square
with 100 ^ 2 (the claim theorems prove the square-root form equivalent). -/
def distSq (p q : ℤ × ℤ) : ℤ := (q.1 - p.1) ^ 2 + (q.2 - p.2) ^ 2

/-- `draw_on_canvas`: stamp a filled disk at (x, y); if the matching last
point is set and within the jump guard (distance below 100), also stroke a
connecting thick line; then record (x, y) as that mode's last point.  The
draw branch uses brush_size, current_color and line width brush_size * 2;
the erase branch uses eraser_size, the background color and line width
eraser_size. -/
def draw_on_canvas (s : BoardState) (x y : ℤ) (mode : DrawMode) : BoardState :=
  match mode with
  | DrawMode.draw =>
      { s with
        canvas := { s.canvas with ops :=
          s.canvas.ops ++ [CanvasOp.circle (x, y) s.brush_size s.current_color] ++
            (match s.last_draw_point with
             | some p =>
                 if distSq p (x, y) < 100 ^ 2 then
                   [CanvasOp.line p (x, y) s.current_color (s.brush_size * 2)]
                 else []
             | none => []) },
        last_draw_point := some (x, y) }
  | DrawMode.erase =>
      { s with
        canvas := { s.canvas with ops :=
          s.canvas.ops ++ [CanvasOp.circle (x, y) s.eraser_size backgroundColor] ++
            (match s.last_erase_point with
             | some p =>
                 if distSq p (x, y) < 100 ^ 2 then
                   [CanvasOp.line p (x, y) backgroundColor s.eraser_size]
                 else []
             | none => []) },
        last_erase_point := some (x, y) }

/-- `reset_last_points`: clear both stroke-continuity points. -/
def reset_last_points (s : BoardState) : BoardState :=
  { s with last_draw_point := none, last_erase_point := none }

/-- A detected hand: the normalized landmark positions, indexed by the
MediaPipe landmark numbers used in the source (fingertips 4, 8, 12, 16, 20;
second joints 3, 6, 10, 14, 18; only indices below 21 are ever queried). -/
structure HandLandmarks where
  landmark : ℕ → ℚ × ℚ

/-- Fingertip landmark indices (thumb, index, middle, ring, pinky). -/
def finger_tips : ℕ → ℕ
  | 0 => 4
  | 1 => 8
  | 2 => 12
  | 3 => 16
  | _ => 20

/-- Second-joint landmark indices corresponding to `finger_tips`. -/
def finger_pips : ℕ → ℕ
  | 0 => 3
  | 1 => 6
  | 2 => 10
  | 3 => 14
  | _ => 18

/-- Per-finger extension test of `detect_fingers_mediapipe`.  The thumb test
in the source compares math.sqrt of the squared tip-to-joint distance with
0.08; over exact rationals that equals the squared comparison used here (the
claim-4 theorem proves the square-root form equivalent).  The other fingers
test tip.y < pip.y - 0.02. -/
def is_extended (lm : HandLandmarks) (i : ℕ) : Bool :=
  if i = 0 then
    decide ((8 / 100 : ℚ) ^ 2 <
      ((lm.landmark 4).1 - (lm.landmark 3).1) ^ 2 +
        ((lm.landmark 4).2 - (lm.landmark 3).2) ^ 2)
  else
    decide ((lm.landmark (finger_tips i)).2 < (lm.landmark (finger_pips i)).2 - 2 / 100)

/-- Number of extended fingers counted by `detect_fingers_mediapipe`: the
loop runs i over range(5) and increments once per passing finger. -/
def count_fingers (lm : HandLandmarks) : ℕ :=
  (([0, 1, 2, 3, 4] : List ℕ).filter (fun i => is_extended lm i)).length

/-- Python int() truncates toward zero. -/
def pyInt (q : ℚ) : ℤ := if 0 ≤ q then ⌊q⌋ else -⌊-q⌋

/-- `detect_fingers_mediapipe`: on a detected hand, the cursor is the index
fingertip scaled to pixel coordinates, returned with the extended-finger
count and the identity list of extended fingers; with no hand detected (or a
detection error) it returns (None, None, 0, []). -/
def detect_fingers_mediapipe (hand : Option HandLandmarks) (w h : ℕ) :
    Option ℤ × Option ℤ × ℕ × List ℕ :=
  match hand with
  | none => (none, none, 0, [])
  | some lm =>
      (some (pyInt ((lm.landmark 8).1 * (w : ℚ))),
       some (pyInt ((lm.landmark 8).2 * (h : ℚ))),
       count_fingers lm,
       ([0, 1, 2, 3, 4] : List ℕ).filter (fun i => is_extended lm i))

/-- Loop-local and object state threaded through one iteration of `run`
(hand-tracking mode, mouse_mode false). -/
structure RunState where
  board : BoardState
  last_finger_count : ℕ
  hand_pos : ℤ × ℤ
  deriving DecidableEq

/-- Python truthiness of an optional integer coordinate: None and 0 are
falsy, every other integer is truthy. -/
def truthy : Option ℤ → Bool
  | none => false
  | some v => decide (v ≠ 0)

/-- Canvas resize step of `run`: reinitialize the canvas when the flipped
frame shape differs from the canvas shape. -/
def tickResize (rs : RunState) (W H : ℕ) : RunState :=
  if (rs.board.canvas.height, rs.board.canvas.width) ≠ (H, W) then
    { rs with board := { rs.board with canvas := init_canvas W H } }
  else rs

/-- Gesture-change step of `run`: a changed finger count resets both last
points (and records the new count) before any drawing or erasing logic runs
that frame. -/
def tickCounts (rs : RunState) (fc : ℕ) : RunState :=
  if fc ≠ rs.last_finger_count then
    { rs with board := reset_last_points rs.board, last_finger_count := fc }
  else rs

/-- Gesture dispatch of `run`, guarded by Python truthiness of both cursor
coordinates: draw on exactly FINGERS_FOR_DRAW fingers (only in
drawing_mode), else erase on at least FINGERS_FOR_ERASE fingers, else reset
the last points. -/
def tickGesture (rs : RunState) (hx hy : Option ℤ) (fc : ℕ) : RunState :=
  if truthy hx && truthy hy then
    if fc = rs.board.FINGERS_FOR_DRAW then
      if rs.board.drawing_mode then
        { rs with hand_pos := (hx.getD 0, hy.getD 0),
                  board := draw_on_canvas rs.board (hx.getD 0) (hy.getD 0) DrawMode.draw }
      else
        { rs with hand_pos := (hx.getD 0, hy.getD 0) }
    else if rs.board.FINGERS_FOR_ERASE ≤ fc then
      { rs with hand_pos := (hx.getD 0, hy.getD 0),
                board := draw_on_canvas rs.board (hx.getD 0) (hy.getD 0) DrawMode.erase }
    else
      { rs with hand_pos := (hx.getD 0, hy.getD 0),
                board := reset_last_points rs.board }
  else rs

/-- One iteration of the main loop in hand-tracking mode, driven by the
flipped frame shape and the detector outputs: resize check, finger-count
change reset, then gesture dispatch. -/
def tick (rs : RunState) (W H : ℕ) (hx hy : Option ℤ) (fc : ℕ) : RunState :=
  tickGesture (tickCounts (tickResize rs W H) fc) hx hy fc

/-- The fixed color palette of the board. -/
def colors : List Color :=
  [(0, 0, 255), (0, 255, 0), (255, 0, 0), (0, 255, 255),
   (255, 0, 255), (255, 255, 0), (255, 255, 255), (0, 0, 0)]

/-- The fixed brush size list cycled by the s key. -/
def sizes : List ℕ := [5, 8, 12, 20, 30, 50]

/-- Space key handler: toggle drawing_mode and reset the last points. -/
def keySpace (rs : RunState) : RunState :=
  { rs with board :=
      reset_last_points { rs.board with drawing_mode := !rs.board.drawing_mode } }

/-- The c key handler: cycle current_color through the palette. -/
def keyColor (rs : RunState) : RunState :=
  let current_idx : ℕ :=
    if rs.board.current_color ∈ colors then
      colors.findIdx (fun c => decide (c = rs.board.current_color))
    else 0
  { rs with board := { rs.board with
      current_color := colors.getD ((current_idx + 1) % colors.length) (0, 0, 0) } }

/-- The s key handler: cycle brush_size through the fixed size list. -/
def keySize (rs : RunState) : RunState :=
  let current_idx : ℕ :=
    if rs.board.brush_size ∈ sizes then
      sizes.findIdx (fun c => decide (c = rs.board.brush_size))
    else 0
  { rs with board := { rs.board with
      brush_size := sizes.getD ((current_idx + 1) % sizes.length) 0 } }

/-- The r key handler: clear the canvas and reset the last points. -/
def keyClear (rs : RunState) (W H : ℕ) : RunState :=
  { rs with board :=
      reset_last_points { rs.board with canvas := init_canvas W H } }

/-- Field values set by the GestureDrawingBoard constructor. -/
def initBoard : BoardState :=
  { FINGERS_FOR_DRAW := 2, FINGERS_FOR_ERASE := 4, drawing_mode := true,
    current_color := (0, 255, 0), brush_size := 8, eraser_size := 40,
    canvas := init_canvas 1920 1080,
    last_draw_point := none, last_erase_point := none }

/-- State at the top of the main loop (last_finger_count starts at 0). -/
def initState : RunState :=
  { board := initBoard, last_finger_count := 0, hand_pos := (0, 0) }

/-- States of a hand-tracking session: the initial state closed under frame
ticks and the mode-toggle, color, size and clear key handlers. -/
inductive Reachable : RunState → Prop where
  | init : Reachable initState
  | frame {rs : RunState} (W H : ℕ) (hx hy : Option ℤ) (fc : ℕ) :
      Reachable rs → Reachable (tick rs W H hx hy fc)
  | spaceKey {rs : RunState} : Reachable rs → Reachable (keySpace rs)
  | colorKey {rs : RunState} : Reachable rs → Reachable (keyColor rs)
  | sizeKey {rs : RunState} : Reachable rs → Reachable (keySize rs)
  | clearKey {rs : RunState} (W H : ℕ) : Reachable rs → Reachable (keyClear rs W H)

/-- Tri-state action mode of the specification's Mode Arbiter. -/
inductive ActionMode where
  | Drawing
  | Erasing
  | Idle
  deriving DecidableEq

/-- Mode Arbiter following the words of specification section 4.2: Drawing
on an exact FINGERS_FOR_DRAW count in Write mode, else Erasing on at least
FINGERS_FOR_ERASE, else Idle. -/
def specActionMode (fd fe fc : ℕ) (write : Bool) : ActionMode :=
  if fc = fd ∧ write = true then ActionMode.Drawing
  else if fe ≤ fc then ActionMode.Erasing
  else ActionMode.Idle

/-- Arbiter verdict for one frame of a run state, at that frame's finger
count and the state's base mode and thresholds. -/
def frameMode (rs : RunState) (fc : ℕ) : ActionMode :=
  specActionMode rs.board.FINGERS_FOR_DRAW rs.board.FINGERS_FOR_ERASE fc
    rs.board.drawing_mode

/-- Inductive state invariant of a hand-tracking session with the default
thresholds: a non-absent stroke point always matches the recorded finger
count and base mode of the stroke that set it. -/
def SlotInv (rs : RunState) : Prop :=
  rs.board.FINGERS_FOR_DRAW = 2 ∧ rs.board.FINGERS_FOR_ERASE = 4 ∧
  (rs.board.last_draw_point ≠ none →
    rs.last_finger_count = 2 ∧ rs.board.drawing_mode = true) ∧
  (rs.board.last_erase_point ≠ none → 4 ≤ rs.last_finger_count)

/-- Comparing the real Euclidean distance of an integer offset with the 100
px jump threshold equals the integer squared comparison of the embedding. -/
lemma sqrt_lt_hundred_iff (a b : ℤ) :
    Real.sqrt ((a : ℝ) ^ 2 + (b : ℝ) ^ 2) < 100 ↔ a ^ 2 + b ^ 2 < 100 ^ 2 := by
  rw [Real.sqrt_lt' (by norm_num : (0 : ℝ) < 100)]
  have h : ((a : ℝ) ^ 2 + (b : ℝ) ^ 2) = ((a ^ 2 + b ^ 2 : ℤ) : ℝ) := by push_cast; ring
  rw [h]
  constructor <;> intro h2 <;> exact_mod_cast h2

/-- Comparing the real Euclidean distance of a rational offset with the
0.08 thumb threshold equals the rational squared comparison used in
`is_extended`. -/
lemma thumb_sqrt_iff (a b : ℚ) :
    (8 / 100 : ℝ) < Real.sqrt ((a : ℝ) ^ 2 + (b : ℝ) ^ 2) ↔
      (8 / 100 : ℚ) ^ 2 < a ^ 2 + b ^ 2 := by
  rw [Real.lt_sqrt (by positivity)]
  rw [show ((8 : ℝ) / 100) = ((8 / 100 : ℚ) : ℝ) by norm_num]
  rw [show ((a : ℝ) ^ 2 + (b : ℝ) ^ 2) = ((a ^ 2 + b ^ 2 : ℚ) : ℝ) by push_cast; ring]
  constructor <;> intro h2 <;> exact_mod_cast h2

@[simp] lemma draw_last_draw (s : BoardState) (x y : ℤ) :
    (draw_on_canvas s x y DrawMode.draw).last_draw_point = some (x, y) := rfl

@[simp] lemma draw_last_erase (s : BoardState) (x y : ℤ) :
    (draw_on_canvas s x y DrawMode.draw).last_erase_point = s.last_erase_point := rfl

@[simp] lemma erase_last_erase (s : BoardState) (x y : ℤ) :
    (draw_on_canvas s x y DrawMode.erase).last_erase_point = some (x, y) := rfl

@[simp] lemma erase_last_draw (s : BoardState) (x y : ℤ) :
    (draw_on_canvas s x y DrawMode.erase).last_draw_point = s.last_draw_point := rfl

@[simp] lemma draw_mode_field (s : BoardState) (x y : ℤ) (m : DrawMode) :
    (draw_on_canvas s x y m).drawing_mode = s.drawing_mode := by
  cases m <;> rfl

@[simp] lemma draw_fd_field (s : BoardState) (x y : ℤ) (m : DrawMode) :
    (draw_on_canvas s x y m).FINGERS_FOR_DRAW = s.FINGERS_FOR_DRAW := by
  cases m <;> rfl

@[simp] lemma draw_fe_field (s : BoardState) (x y : ℤ) (m : DrawMode) :
    (draw_on_canvas s x y m).FINGERS_FOR_ERASE = s.FINGERS_FOR_ERASE := by
  cases m <;> rfl

@[simp] lemma reset_last_draw (s : BoardState) :
    (reset_last_points s).last_draw_point = none := rfl

@[simp] lemma reset_last_erase (s : BoardState) :
    (reset_last_points s).last_erase_point = none := rfl

@[simp] lemma reset_canvas (s : BoardState) :
    (reset_last_points s).canvas = s.canvas := rfl

/-- Arbiter verdict characterization: Drawing. -/
lemma specActionMode_drawing_iff (fd fe fc : ℕ) (w : Bool) :
    specActionMode fd fe fc w = ActionMode.Drawing ↔ fc = fd ∧ w = true := by
  unfold specActionMode
  split_ifs <;> simp_all

/-- Arbiter verdict characterization: Erasing. -/
lemma specActionMode_erasing_iff (fd fe fc : ℕ) (w : Bool) :
    specActionMode fd fe fc w = ActionMode.Erasing ↔
      ¬(fc = fd ∧ w = true) ∧ fe ≤ fc := by
  unfold specActionMode
  split_ifs <;> simp_all

/-- Arbiter verdict characterization: Idle. -/
lemma specActionMode_idle_iff (fd fe fc : ℕ) (w : Bool) :
    specActionMode fd fe fc w = ActionMode.Idle ↔
      ¬(fc = fd ∧ w = true) ∧ fc < fe := by
  unfold specActionMode
  split_ifs <;> simp_all

/-- The resize step leaves the state unchanged when the frame shape matches
the canvas shape. -/
lemma tickResize_eq_self {rs : RunState} {W H : ℕ}
    (hw : rs.board.canvas.width = W) (hh : rs.board.canvas.height = H) :
    tickResize rs W H = rs := by
  unfold tickResize
  split
  · next hne => exact absurd (by simp [hw, hh]) hne
  · rfl

/-- The count step always records the frame's finger count. -/
lemma tickCounts_lfc (rs : RunState) (fc : ℕ) :
    (tickCounts rs fc).last_finger_count = fc := by
  unfold tickCounts
  split
  · rfl
  · next hne => simpa using (not_not.mp hne).symm

/-- The count step either keeps the state (count unchanged) or resets both
last points and records the new count. -/
lemma tickCounts_cases (rs : RunState) (fc : ℕ) :
    (tickCounts rs fc = rs ∧ rs.last_finger_count = fc) ∨
    tickCounts rs fc =
      { rs with board := reset_last_points rs.board, last_finger_count := fc } := by
  unfold tickCounts
  split
  · right; rfl
  · next hne => exact Or.inl ⟨rfl, (not_not.mp hne).symm⟩

lemma slotInv_tickResize {rs : RunState} (W H : ℕ) (h : SlotInv rs) :
    SlotInv (tickResize rs W H) := by
  unfold tickResize
  split
  · obtain ⟨h1, h2, h3, h4⟩ := h
    exact ⟨h1, h2, h3, h4⟩
  · exact h

lemma slotInv_tickCounts {rs : RunState} (fc : ℕ) (h : SlotInv rs) :
    SlotInv (tickCounts rs fc) := by
  unfold tickCounts
  split
  · exact ⟨h.1, h.2.1, by simp [reset_last_points], by simp [reset_last_points]⟩
  · exact h

lemma slotInv_tickGesture {rs : RunState} (hx hy : Option ℤ) (fc : ℕ)
    (h : SlotInv rs) (hfc : rs.last_finger_count = fc) :
    SlotInv (tickGesture rs hx hy fc) := by
  obtain ⟨hfd, hfe, hdraw, herase⟩ := h
  unfold tickGesture
  split
  · split
    · split
      · next hm =>
        next hEq =>
        refine ⟨by simpa using hfd, by simpa using hfe, ?_, ?_⟩
        · intro _
          refine ⟨?_, by simpa using hm⟩
          simp only []
          omega
        · intro hne
          simp only [draw_last_erase] at hne
          simpa using herase hne
      · exact ⟨hfd, hfe, hdraw, herase⟩
    · split
      · next hge =>
        refine ⟨by simpa using hfd, by simpa using hfe, ?_, ?_⟩
        · intro hne
          simp only [erase_last_draw] at hne
          simpa using hdraw hne
        · intro _
          simp only []
          omega
      · refine ⟨by simpa using hfd, by simpa using hfe, ?_, ?_⟩
        · intro hne
          simp at hne
        · intro hne
          simp at hne
  · exact ⟨hfd, hfe, hdraw, herase⟩

lemma slotInv_tick {rs : RunState} (W H : ℕ) (hx hy : Option ℤ) (fc : ℕ)
    (h : SlotInv rs) : SlotInv (tick rs W H hx hy fc) := by
  unfold tick
  exact slotInv_tickGesture hx hy fc
    (slotInv_tickCounts fc (slotInv_tickResize W H h))
    (tickCounts_lfc (tickResize rs W H) fc)

lemma slotInv_keySpace {rs : RunState} (h : SlotInv rs) :
    SlotInv (keySpace rs) := by
  exact ⟨h.1, h.2.1, by simp [keySpace, reset_last_points],
    by simp [keySpace, reset_last_points]⟩

lemma slotInv_keyColor {rs : RunState} (h : SlotInv rs) :
    SlotInv (keyColor rs) := by
  obtain ⟨h1, h2, h3, h4⟩ := h
  exact ⟨h1, h2, h3, h4⟩

lemma slotInv_keySize {rs : RunState} (h : SlotInv rs) :
    SlotInv (keySize rs) := by
  obtain ⟨h1, h2, h3, h4⟩ := h
  exact ⟨h1, h2, h3, h4⟩

lemma slotInv_keyClear {rs : RunState} (W H : ℕ) (h : SlotInv rs) :
    SlotInv (keyClear rs W H) := by
  exact ⟨h.1, h.2.1, by simp [keyClear, reset_last_points],
    by simp [keyClear, reset_last_points]⟩

/-- Every state of a hand-tracking session satisfies the slot invariant. -/
lemma reachable_slotInv {rs : RunState} (h : Reachable rs) : SlotInv rs := by
  induction h with
  | init =>
      exact ⟨rfl, rfl, by simp [initState, initBoard], by simp [initState, initBoard]⟩
  | frame W H hx hy fc _ ih => exact slotInv_tick W H hx hy fc ih
  | spaceKey _ ih => exact slotInv_keySpace ih
  | colorKey _ ih => exact slotInv_keyColor ih
  | sizeKey _ ih => exact slotInv_keySize ih
  | clearKey W H _ ih => exact slotInv_keyClear W H ih

@[simp] lemma tickResize_last_draw (rs : RunState) (W H : ℕ) :
    (tickResize rs W H).board.last_draw_point = rs.board.last_draw_point := by
  unfold tickResize; split <;> rfl

@[simp] lemma tickResize_last_erase (rs : RunState) (W H : ℕ) :
    (tickResize rs W H).board.last_erase_point = rs.board.last_erase_point := by
  unfold tickResize; split <;> rfl

@[simp] lemma tickResize_lfc (rs : RunState) (W H : ℕ) :
    (tickResize rs W H).last_finger_count = rs.last_finger_count := by
  unfold tickResize; split <;> rfl

@[simp] lemma tickResize_mode (rs : RunState) (W H : ℕ) :
    (tickResize rs W H).board.drawing_mode = rs.board.drawing_mode := by
  unfold tickResize; split <;> rfl

@[simp] lemma tickResize_fd (rs : RunState) (W H : ℕ) :
    (tickResize rs W H).board.FINGERS_FOR_DRAW = rs.board.FINGERS_FOR_DRAW := by
  unfold tickResize; split <;> rfl

@[simp] lemma tickResize_fe (rs : RunState) (W H : ℕ) :
    (tickResize rs W H).board.FINGERS_FOR_ERASE = rs.board.FINGERS_FOR_ERASE := by
  unfold tickResize; split <;> rfl

@[simp] lemma tickResize_brush (rs : RunState) (W H : ℕ) :
    (tickResize rs W H).board.brush_size = rs.board.brush_size := by
  unfold tickResize; split <;> rfl

@[simp] lemma tickResize_eraser (rs : RunState) (W H : ℕ) :
    (tickResize rs W H).board.eraser_size = rs.board.eraser_size := by
  unfold tickResize; split <;> rfl

@[simp] lemma tickResize_color (rs : RunState) (W H : ℕ) :
    (tickResize rs W H).board.current_color = rs.board.current_color := by
  unfold tickResize; split <;> rfl

@[simp] lemma tickCounts_canvas (rs : RunState) (fc : ℕ) :
    (tickCounts rs fc).board.canvas = rs.board.canvas := by
  unfold tickCounts; split <;> rfl

@[simp] lemma tickCounts_mode (rs : RunState) (fc : ℕ) :
    (tickCounts rs fc).board.drawing_mode = rs.board.drawing_mode := by
  unfold tickCounts; split <;> rfl

@[simp] lemma tickCounts_fd (rs : RunState) (fc : ℕ) :
    (tickCounts rs fc).board.FINGERS_FOR_DRAW = rs.board.FINGERS_FOR_DRAW := by
  unfold tickCounts; split <;> rfl

@[simp] lemma tickCounts_fe (rs : RunState) (fc : ℕ) :
    (tickCounts rs fc).board.FINGERS_FOR_ERASE = rs.board.FINGERS_FOR_ERASE := by
  unfold tickCounts; split <;> rfl

@[simp] lemma tickCounts_brush (rs : RunState) (fc : ℕ) :
    (tickCounts rs fc).board.brush_size = rs.board.brush_size := by
  unfold tickCounts; split <;> rfl

@[simp] lemma tickCounts_eraser (rs : RunState) (fc : ℕ) :
    (tickCounts rs fc).board.eraser_size = rs.board.eraser_size := by
  unfold tickCounts; split <;> rfl

@[simp] lemma tickCounts_color (rs : RunState) (fc : ℕ) :
    (tickCounts rs fc).board.current_color = rs.board.current_color := by
  unfold tickCounts; split <;> rfl

/-- Gesture branch: matching draw count in Write mode draws. -/
lemma tickGesture_draw_branch {rs : RunState} {x y : ℤ} {fc : ℕ}
    (hx : x ≠ 0) (hy : y ≠ 0) (h1 : fc = rs.board.FINGERS_FOR_DRAW)
    (h2 : rs.board.drawing_mode = true) :
    tickGesture rs (some x) (some y) fc =
      { rs with hand_pos := (x, y),
                board := draw_on_canvas rs.board x y DrawMode.draw } := by
  simp [tickGesture, truthy, hx, hy, h1, h2]

/-- Gesture branch: matching draw count outside Write mode does nothing to
the board (only the crosshair position is updated). -/
lemma tickGesture_skip_branch {rs : RunState} {x y : ℤ} {fc : ℕ}
    (hx : x ≠ 0) (hy : y ≠ 0) (h1 : fc = rs.board.FINGERS_FOR_DRAW)
    (h2 : rs.board.drawing_mode = false) :
    tickGesture rs (some x) (some y) fc = { rs with hand_pos := (x, y) } := by
  simp [tickGesture, truthy, hx, hy, h1, h2]

/-- Gesture branch: a count at least the erase threshold (and unequal to the
draw count) erases. -/
lemma tickGesture_erase_branch {rs : RunState} {x y : ℤ} {fc : ℕ}
    (hx : x ≠ 0) (hy : y ≠ 0) (h1 : fc ≠ rs.board.FINGERS_FOR_DRAW)
    (h2 : rs.board.FINGERS_FOR_ERASE ≤ fc) :
    tickGesture rs (some x) (some y) fc =
      { rs with hand_pos := (x, y),
                board := draw_on_canvas rs.board x y DrawMode.erase } := by
  simp [tickGesture, truthy, hx, hy, h1, h2]

/-- Gesture branch: any other count resets the last points. -/
lemma tickGesture_reset_branch {rs : RunState} {x y : ℤ} {fc : ℕ}
    (hx : x ≠ 0) (hy : y ≠ 0) (h1 : fc ≠ rs.board.FINGERS_FOR_DRAW)
    (h2 : ¬ rs.board.FINGERS_FOR_ERASE ≤ fc) :
    tickGesture rs (some x) (some y) fc =
      { rs with hand_pos := (x, y), board := reset_last_points rs.board } := by
  simp [tickGesture, truthy, hx, hy, h1, h2]

/-- Gesture branch: a falsy cursor coordinate skips the whole dispatch. -/
lemma tickGesture_nocursor {rs : RunState} {hx hy : Option ℤ} {fc : ℕ}
    (h : (truthy hx && truthy hy) = false) :
    tickGesture rs hx hy fc = rs := by
  simp [tickGesture, h]

/-- Draw ops with no previous point: just the disk. -/
lemma draw_ops_none {s : BoardState} {x y : ℤ} (h : s.last_draw_point = none) :
    (draw_on_canvas s x y DrawMode.draw).canvas.ops =
      s.canvas.ops ++ [CanvasOp.circle (x, y) s.brush_size s.current_color] := by
  simp [draw_on_canvas, h]

/-- Draw ops with a previous point within the jump guard: disk plus
connecting line of width brush_size * 2. -/
lemma draw_ops_near {s : BoardState} {x y : ℤ} {p : ℤ × ℤ}
    (h : s.last_draw_point = some p) (hn : distSq p (x, y) < 100 ^ 2) :
    (draw_on_canvas s x y DrawMode.draw).canvas.ops =
      s.canvas.ops ++ [CanvasOp.circle (x, y) s.brush_size s.current_color,
        CanvasOp.line p (x, y) s.current_color (s.brush_size * 2)] := by
  have hn10 : distSq p (x, y) < 10000 := by simpa using hn
  simp [draw_on_canvas, h, hn10]

/-- Draw ops with a previous point beyond the jump guard: just the disk. -/
lemma draw_ops_far {s : BoardState} {x y : ℤ} {p : ℤ × ℤ}
    (h : s.last_draw_point = some p) (hn : ¬ distSq p (x, y) < 100 ^ 2) :
    (draw_on_canvas s x y DrawMode.draw).canvas.ops =
      s.canvas.ops ++ [CanvasOp.circle (x, y) s.brush_size s.current_color] := by
  have hn10 : ¬ distSq p (x, y) < 10000 := by simpa using hn
  simp [draw_on_canvas, h, hn10]

/-- Erase ops with no previous point: just the background disk. -/
lemma erase_ops_none {s : BoardState} {x y : ℤ} (h : s.last_erase_point = none) :
    (draw_on_canvas s x y DrawMode.erase).canvas.ops =
      s.canvas.ops ++ [CanvasOp.circle (x, y) s.eraser_size backgroundColor] := by
  simp [draw_on_canvas, h]

/-- Erase ops with a previous point within the jump guard: background disk
plus connecting background line of width eraser_size. -/
lemma erase_ops_near {s : BoardState} {x y : ℤ} {p : ℤ × ℤ}
    (h : s.last_erase_point = some p) (hn : distSq p (x, y) < 100 ^ 2) :
    (draw_on_canvas s x y DrawMode.erase).canvas.ops =
      s.canvas.ops ++ [CanvasOp.circle (x, y) s.eraser_size backgroundColor,
        CanvasOp.line p (x, y) backgroundColor s.eraser_size] := by
  have hn10 : distSq p (x, y) < 10000 := by simpa using hn
  simp [draw_on_canvas, h, hn10]

/-- Erase ops with a previous point beyond the jump guard: just the
background disk. -/
lemma erase_ops_far {s : BoardState} {x y : ℤ} {p : ℤ × ℤ}
    (h : s.last_erase_point = some p) (hn : ¬ distSq p (x, y) < 100 ^ 2) :
    (draw_on_canvas s x y DrawMode.erase).canvas.ops =
      s.canvas.ops ++ [CanvasOp.circle (x, y) s.eraser_size backgroundColor] := by
  have hn10 : ¬ distSq p (x, y) < 10000 := by simpa using hn
  simp [draw_on_canvas, h, hn10]

/-- Board with a pending draw point at (0, 0), for the jump-guard example. -/
def boardJump : BoardState :=
  { initBoard with canvas := init_canvas 4 4, last_draw_point := some (0, 0) }

/-- Board with a pending draw point at (10, 10), for the continuity
example. -/
def boardCont : BoardState :=
  { initBoard with canvas := init_canvas 4 4, last_draw_point := some (10, 10) }

/-- Board with a pending erase point at (10, 10). -/
def boardErase : BoardState :=
  { initBoard with canvas := init_canvas 4 4, last_erase_point := some (10, 10) }

/-- Claim C1: in Drawing mode the renderer always stamps a filled disk of
radius brush_size in current_color at the cursor; when last_draw_point is
present, a connecting line of width brush_size * 2 is drawn in addition
exactly when the Euclidean distance from it to the cursor is strictly below
100 px; afterwards last_draw_point is set to the cursor. -/
theorem draw_stamps_disk_and_guarded_line (s : BoardState) (x y : ℤ) :
    (draw_on_canvas s x y DrawMode.draw).last_draw_point = some (x, y) ∧
    (s.last_draw_point = none →
      (draw_on_canvas s x y DrawMode.draw).canvas.ops =
        s.canvas.ops ++ [CanvasOp.circle (x, y) s.brush_size s.current_color]) ∧
    (∀ p : ℤ × ℤ, s.last_draw_point = some p →
      (Real.sqrt (((x - p.1 : ℤ) : ℝ) ^ 2 + ((y - p.2 : ℤ) : ℝ) ^ 2) < 100 →
        (draw_on_canvas s x y DrawMode.draw).canvas.ops =
          s.canvas.ops ++ [CanvasOp.circle (x, y) s.brush_size s.current_color,
            CanvasOp.line p (x, y) s.current_color (s.brush_size * 2)]) ∧
      (¬ Real.sqrt (((x - p.1 : ℤ) : ℝ) ^ 2 + ((y - p.2 : ℤ) : ℝ) ^ 2) < 100 →
        (draw_on_canvas s x y DrawMode.draw).canvas.ops =
          s.canvas.ops ++ [CanvasOp.circle (x, y) s.brush_size s.current_color])) := by
  refine ⟨rfl, fun h0 => draw_ops_none h0, fun p hp => ⟨?_, ?_⟩⟩
  · intro hlt
    exact draw_ops_near hp (by simpa [distSq] using (sqrt_lt_hundred_iff _ _).mp hlt)
  · intro hge
    refine draw_ops_far hp (fun hc => hge ((sqrt_lt_hundred_iff _ _).mpr ?_))
    simpa [distSq] using hc

/-- Witness for claim C1 at the two examples of the specification: moving
from (0, 0) to (200, 200) stamps only the disk, moving from (10, 10) to
(15, 10) stamps the disk and the connecting line. -/
theorem draw_stamps_disk_and_guarded_line_witness :
    (draw_on_canvas boardJump 200 200 DrawMode.draw).canvas.ops =
      [CanvasOp.circle (200, 200) 8 (0, 255, 0)] ∧
    (draw_on_canvas boardCont 15 10 DrawMode.draw).canvas.ops =
      [CanvasOp.circle (15, 10) 8 (0, 255, 0),
       CanvasOp.line (10, 10) (15, 10) (0, 255, 0) 16] := by
  constructor
  · have h2 := ((draw_stamps_disk_and_guarded_line boardJump 200 200).2.2 (0, 0) rfl).2
      (fun hlt => absurd ((sqrt_lt_hundred_iff _ _).mp hlt) (by decide))
    simpa [boardJump, initBoard, init_canvas] using h2
  · have h3 := ((draw_stamps_disk_and_guarded_line boardCont 15 10).2.2 (10, 10) rfl).1
      ((sqrt_lt_hundred_iff _ _).mpr (by decide))
    simpa [boardCont, initBoard, init_canvas] using h3

/-- Counterexample to claim C6: connecting an erase stroke from (10, 10) to
(15, 10) strokes the background-color line with width eraser_size = 40, not
2 * eraser_size = 80, so erasing is not the drawing algorithm with the
eraser parameters substituted for the brush parameters. -/
theorem erase_line_width_counterexample :
    (draw_on_canvas boardErase 15 10 DrawMode.erase).canvas.ops =
      [CanvasOp.circle (15, 10) 40 backgroundColor,
       CanvasOp.line (10, 10) (15, 10) backgroundColor 40] ∧
    (40 : ℕ) ≠ 2 * boardErase.eraser_size := by
  exact ⟨by decide, by decide⟩

/-- Amended claim C6: erasing stamps a filled disk of radius eraser_size in
the background color at the cursor; when last_erase_point is present, a
connecting background-color line of width eraser_size (not eraser_size * 2)
is drawn exactly when the distance is strictly below 100 px; afterwards
last_erase_point is set to the cursor and last_draw_point is untouched. -/
theorem erase_renderer_spec (s : BoardState) (x y : ℤ) :
    (draw_on_canvas s x y DrawMode.erase).last_erase_point = some (x, y) ∧
    (draw_on_canvas s x y DrawMode.erase).last_draw_point = s.last_draw_point ∧
    (s.last_erase_point = none →
      (draw_on_canvas s x y DrawMode.erase).canvas.ops =
        s.canvas.ops ++ [CanvasOp.circle (x, y) s.eraser_size backgroundColor]) ∧
    (∀ p : ℤ × ℤ, s.last_erase_point = some p →
      (Real.sqrt (((x - p.1 : ℤ) : ℝ) ^ 2 + ((y - p.2 : ℤ) : ℝ) ^ 2) < 100 →
        (draw_on_canvas s x y DrawMode.erase).canvas.ops =
          s.canvas.ops ++ [CanvasOp.circle (x, y) s.eraser_size backgroundColor,
            CanvasOp.line p (x, y) backgroundColor s.eraser_size]) ∧
      (¬ Real.sqrt (((x - p.1 : ℤ) : ℝ) ^ 2 + ((y - p.2 : ℤ) : ℝ) ^ 2) < 100 →
        (draw_on_canvas s x y DrawMode.erase).canvas.ops =
          s.canvas.ops ++ [CanvasOp.circle (x, y) s.eraser_size backgroundColor])) := by
  refine ⟨rfl, rfl, fun h0 => erase_ops_none h0, fun p hp => ⟨?_, ?_⟩⟩
  · intro hlt
    exact erase_ops_near hp (by simpa [distSq] using (sqrt_lt_hundred_iff _ _).mp hlt)
  · intro hge
    refine erase_ops_far hp (fun hc => hge ((sqrt_lt_hundred_iff _ _).mpr ?_))
    simpa [distSq] using hc

/-- Witness for the amended claim C6: an erase jump from (10, 10) to
(300, 10) stamps only the background disk. -/
theorem erase_renderer_spec_witness :
    (draw_on_canvas boardErase 300 10 DrawMode.erase).canvas.ops =
      [CanvasOp.circle (300, 10) 40 backgroundColor] := by
  have h2 := ((erase_renderer_spec boardErase 300 10).2.2.2 (10, 10) rfl).2
    (fun hlt => absurd ((sqrt_lt_hundred_iff _ _).mp hlt) (by decide))
  simpa [boardErase, initBoard, init_canvas] using h2

/-- Claim C2: within a tick, the finger-count comparison against the
previous frame runs before the gesture dispatch; a changed count clears
both stroke points and records the new count, while an unchanged count
leaves the state (in particular last_draw_point) untouched. -/
theorem finger_count_change_resets_slots (rs : RunState) (W H : ℕ)
    (hx hy : Option ℤ) (fc : ℕ) :
    (tick rs W H hx hy fc =
      tickGesture (tickCounts (tickResize rs W H) fc) hx hy fc) ∧
    (fc ≠ rs.last_finger_count →
      (tickCounts rs fc).board.last_draw_point = none ∧
      (tickCounts rs fc).board.last_erase_point = none ∧
      (tickCounts rs fc).last_finger_count = fc) ∧
    (fc = rs.last_finger_count → tickCounts rs fc = rs) := by
  refine ⟨rfl, ?_, ?_⟩
  · intro hne
    simp [tickCounts, hne, reset_last_points]
  · intro heq
    simp [tickCounts, heq]

/-- State with a pending draw point and previous count 2, for the claim C2
witness. -/
def rsKeep : RunState :=
  { board := { initBoard with last_draw_point := some (5, 5) },
    last_finger_count := 2, hand_pos := (0, 0) }

/-- Witness for claim C2 at the two examples of the specification: a count
change 2 to 3 clears last_draw_point, an unchanged count 2 keeps it. -/
theorem finger_count_change_resets_slots_witness :
    (tickCounts rsKeep 3).board.last_draw_point = none ∧
    (tickCounts rsKeep 2).board.last_draw_point = some (5, 5) := by
  constructor
  · exact ((finger_count_change_resets_slots rsKeep 1 1 none none 3).2.1 (by decide)).1
  · have h := (finger_count_change_resets_slots rsKeep 1 1 none none 2).2.2 rfl
    rw [h]
    rfl

/-- Claim C3: with the default thresholds (draw 2, erase 4) and a present
(truthy) cursor, a 2-finger frame in Write mode performs the draw action, a
frame with at least 4 fingers performs the erase action regardless of base
mode, and every other frame neither draws nor erases. -/
theorem default_thresholds_mode_dispatch (rs : RunState) (x y : ℤ) (fc : ℕ)
    (hx : x ≠ 0) (hy : y ≠ 0)
    (hfd : rs.board.FINGERS_FOR_DRAW = 2) (hfe : rs.board.FINGERS_FOR_ERASE = 4) :
    (fc = 2 → rs.board.drawing_mode = true →
      (tickGesture rs (some x) (some y) fc).board =
        draw_on_canvas rs.board x y DrawMode.draw) ∧
    (4 ≤ fc →
      (tickGesture rs (some x) (some y) fc).board =
        draw_on_canvas rs.board x y DrawMode.erase) ∧
    (fc ≠ 2 → fc < 4 →
      (tickGesture rs (some x) (some y) fc).board = reset_last_points rs.board ∧
      (tickGesture rs (some x) (some y) fc).board.canvas = rs.board.canvas) ∧
    (fc = 2 → rs.board.drawing_mode = false →
      (tickGesture rs (some x) (some y) fc).board = rs.board) := by
  refine ⟨?_, ?_, ?_, ?_⟩
  · intro h1 h2
    rw [tickGesture_draw_branch hx hy (hfd ▸ h1) h2]
  · intro h1
    rw [tickGesture_erase_branch hx hy (by omega) (by omega)]
  · intro h1 h2
    rw [tickGesture_reset_branch hx hy (by omega) (by omega)]
    exact ⟨rfl, rfl⟩
  · intro h1 h2
    rw [tickGesture_skip_branch hx hy (hfd ▸ h1) h2]

/-- Witness for claim C3: in the initial state a 1-finger frame at cursor
(5, 6) only resets the stroke points. -/
theorem default_thresholds_mode_dispatch_witness :
    (tickGesture initState (some 5) (some 6) 1).board =
      reset_last_points initState.board := by
  exact ((default_thresholds_mode_dispatch initState 5 6 1 (by decide) (by decide)
    rfl rfl).2.2.1 (by decide) (by decide)).1

/-- Degenerate-threshold state for the claim C5 counterexample: both
thresholds equal 2, base mode Write, both stroke slots empty. -/
def rsDeg : RunState :=
  { board := { initBoard with FINGERS_FOR_ERASE := 2, canvas := init_canvas 4 4 },
    last_finger_count := 2, hand_pos := (0, 0) }

/-- Counterexample to claim C5: with FINGERS_FOR_DRAW = FINGERS_FOR_ERASE =
2 and base mode Write, a 2-finger frame at cursor (50, 60) performs the
draw action and stamps a foreground disk - the draw rule is checked first,
so the frame is Drawing, not Erasing. -/
theorem erase_priority_counterexample :
    (tickGesture rsDeg (some 50) (some 60) 2).board =
      draw_on_canvas rsDeg.board 50 60 DrawMode.draw ∧
    (tickGesture rsDeg (some 50) (some 60) 2).board.canvas.ops =
      [CanvasOp.circle (50, 60) 8 (0, 255, 0)] ∧
    (0, 255, 0) ≠ backgroundColor := by
  exact ⟨by decide, by decide, by decide⟩

/-- Amended claim C5: under the degenerate configuration FINGERS_FOR_DRAW =
FINGERS_FOR_ERASE = 2 with a present cursor, the draw rule takes priority:
a 2-finger frame performs the draw action when the base mode is Write, and
performs neither a draw nor an erase (the board is left unchanged) when the
base mode is Erase; the erase branch is unreachable at count 2. -/
theorem degenerate_config_draw_priority (rs : RunState) (x y : ℤ)
    (hx : x ≠ 0) (hy : y ≠ 0)
    (hfd : rs.board.FINGERS_FOR_DRAW = 2) (_hfe : rs.board.FINGERS_FOR_ERASE = 2) :
    (rs.board.drawing_mode = true →
      (tickGesture rs (some x) (some y) 2).board =
        draw_on_canvas rs.board x y DrawMode.draw) ∧
    (rs.board.drawing_mode = false →
      (tickGesture rs (some x) (some y) 2).board = rs.board) := by
  constructor
  · intro h2
    rw [tickGesture_draw_branch hx hy hfd.symm h2]
  · intro h2
    rw [tickGesture_skip_branch hx hy hfd.symm h2]

/-- Witness for the amended claim C5 at the degenerate configuration state. -/
theorem degenerate_config_draw_priority_witness :
    (tickGesture rsDeg (some 7) (some 9) 2).board =
      draw_on_canvas rsDeg.board 7 9 DrawMode.draw := by
  exact (degenerate_config_draw_priority rsDeg 7 9 (by decide) (by decide)
    rfl rfl).1 rfl

/-- Claim C9: canvas initialization at width W and height H produces a
W-by-H surface every pixel of which holds the dark gray background color,
independent of any prior canvas content; it runs at construction time and
the tick reinitializes exactly when the incoming frame shape differs from
the canvas shape. -/
theorem canvas_init_spec (W H X Y : ℕ) (rs : RunState) :
    (init_canvas W H).width = W ∧
    (init_canvas W H).height = H ∧
    pixAt (init_canvas W H) X Y = backgroundColor ∧
    initBoard.canvas = init_canvas 1920 1080 ∧
    ((rs.board.canvas.height, rs.board.canvas.width) ≠ (H, W) →
      (tickResize rs W H).board.canvas = init_canvas W H) ∧
    ((rs.board.canvas.height, rs.board.canvas.width) = (H, W) →
      tickResize rs W H = rs) := by
  refine ⟨rfl, rfl, rfl, rfl, ?_, ?_⟩
  · intro hne
    simp [tickResize, hne]
  · intro heq
    simp [tickResize, heq]

/-- Witness for claim C9: a fresh 3-by-2 canvas has the background at pixel
(1, 1), and a 640-by-480 frame forces the 1920-by-1080 initial canvas to be
reinitialized. -/
theorem canvas_init_spec_witness :
    pixAt (init_canvas 3 2) 1 1 = backgroundColor ∧
    (tickResize initState 640 480).board.canvas = init_canvas 640 480 := by
  constructor
  · exact (canvas_init_spec 3 2 1 1 initState).2.2.1
  · exact (canvas_init_spec 640 480 0 0 initState).2.2.2.2.1 (by decide)

/-- Claim C10: a frame whose cursor pixel coordinate has hand_x = 0 or
hand_y = 0 is handled exactly like a frame with an absent cursor, because
cursor presence is tested by Python numeric truthiness of the coordinates:
the gesture dispatch neither draws, erases, touches the stroke points, nor
updates the crosshair position. -/
theorem zero_coordinate_cursor_ignored (rs : RunState) (W H : ℕ)
    (hx hy : Option ℤ) (fc : ℕ) (hzero : hx = some 0 ∨ hy = some 0) :
    tick rs W H hx hy fc = tick rs W H none none fc ∧
    tickGesture rs hx hy fc = rs := by
  have ht : (truthy hx && truthy hy) = false := by
    rcases hzero with h0 | h0 <;> subst h0 <;> simp [truthy]
  constructor
  · unfold tick
    rw [tickGesture_nocursor ht, tickGesture_nocursor (by simp [truthy])]
  · exact tickGesture_nocursor ht

/-- Witness for claim C10: a detected hand at pixel (0, 7) with 2 extended
fingers leaves the initial state untouched. -/
theorem zero_coordinate_cursor_ignored_witness :
    tickGesture initState (some 0) (some 7) 2 = initState := by
  exact (zero_coordinate_cursor_ignored initState 1920 1080 (some 0) (some 7) 2
    (Or.inl rfl)).2

/-- Claim C4: the thumb counts as extended exactly when the Euclidean
distance (in normalized units) between its tip joint and the neighboring
joint exceeds 0.08; each of the other four fingers exactly when
tip.y < pip.y - 0.02; the reported count is the number of fingers passing
their test, independent of which specific fingers pass, and lies in 0..5. -/
theorem finger_classifier_spec (lm : HandLandmarks) :
    (is_extended lm 0 = true ↔
      (8 / 100 : ℝ) <
        Real.sqrt ((((lm.landmark 4).1 - (lm.landmark 3).1 : ℚ) : ℝ) ^ 2 +
          (((lm.landmark 4).2 - (lm.landmark 3).2 : ℚ) : ℝ) ^ 2)) ∧
    (∀ i : ℕ, 1 ≤ i → i ≤ 4 →
      (is_extended lm i = true ↔
        (lm.landmark (finger_tips i)).2 <
          (lm.landmark (finger_pips i)).2 - 2 / 100)) ∧
    count_fingers lm =
      (([0, 1, 2, 3, 4] : List ℕ).map
        (fun i => if is_extended lm i then 1 else 0)).sum ∧
    count_fingers lm ≤ 5 ∧
    (∀ w h : ℕ,
      (detect_fingers_mediapipe (some lm) w h).2.2.1 = count_fingers lm) := by
  have hcount : count_fingers lm =
      (([0, 1, 2, 3, 4] : List ℕ).map
        (fun i => if is_extended lm i then 1 else 0)).sum ∧
      count_fingers lm ≤ 5 := by
    cases e0 : is_extended lm 0 <;> cases e1 : is_extended lm 1 <;>
      cases e2 : is_extended lm 2 <;> cases e3 : is_extended lm 3 <;>
        cases e4 : is_extended lm 4 <;>
      simp [count_fingers, List.filter, e0, e1, e2, e3, e4]
  refine ⟨?_, ?_, hcount.1, hcount.2, fun w h => rfl⟩
  · simp [is_extended]
    simpa using (thumb_sqrt_iff ((lm.landmark 4).1 - (lm.landmark 3).1)
      ((lm.landmark 4).2 - (lm.landmark 3).2)).symm
  · intro i h1 h4
    have h0 : i ≠ 0 := by omega
    simp [is_extended, h0]

/-- Landmark set with only the thumb extended: tip (0.2, 0) against joint
(0, 0) is 0.2 away, all other tips level with their second joints. -/
def lmOneFinger : HandLandmarks :=
  ⟨fun i => if i = 4 then ((1 : ℚ) / 5, 0) else (0, 0)⟩

/-- Witness for claim C4: on the thumb-only landmark set the thumb tests
extended and the count is within range. -/
theorem finger_classifier_spec_witness :
    is_extended lmOneFinger 0 = true ∧ count_fingers lmOneFinger ≤ 5 := by
  constructor
  · refine (finger_classifier_spec lmOneFinger).1.mpr ((thumb_sqrt_iff _ _).mpr ?_)
    norm_num [lmOneFinger]
  · exact (finger_classifier_spec lmOneFinger).2.2.2.1

/-- A truthy optional coordinate is a present nonzero integer. -/
lemma truthy_eq_true {o : Option ℤ} (h : truthy o = true) :
    ∃ v, o = some v ∧ v ≠ 0 := by
  cases o with
  | none => simp [truthy] at h
  | some v => exact ⟨v, rfl, by simpa [truthy] using h⟩

/-- Claim C8: a frame with no hand detected yields count 0 and an absent
cursor from the detector, the arbiter classifies it Idle rather than
Erasing, and such a tick at unchanged resolution neither mutates the canvas
nor leaves any stroke point set at the end of the tick. -/
theorem no_hand_idle_tick (rs : RunState) (hr : Reachable rs) (W H : ℕ)
    (hw : rs.board.canvas.width = W) (hh : rs.board.canvas.height = H) :
    (∀ w h : ℕ, detect_fingers_mediapipe none w h = (none, none, 0, [])) ∧
    frameMode rs 0 = ActionMode.Idle ∧
    (tick rs W H none none 0).board.canvas = rs.board.canvas ∧
    (tick rs W H none none 0).board.last_draw_point = none ∧
    (tick rs W H none none 0).board.last_erase_point = none := by
  obtain ⟨hfd, hfe, hdraw, herase⟩ := reachable_slotInv hr
  have hres : tickResize rs W H = rs := tickResize_eq_self hw hh
  have htick : tick rs W H none none 0 = tickCounts rs 0 := by
    unfold tick
    rw [hres, tickGesture_nocursor (by simp [truthy])]
  refine ⟨fun w h => rfl, ?_, ?_, ?_, ?_⟩
  · unfold frameMode
    rw [hfd, hfe, specActionMode_idle_iff]
    exact ⟨by simp, by omega⟩
  · rw [htick, tickCounts_canvas]
  · rw [htick]
    rcases tickCounts_cases rs 0 with ⟨heq, hlfc⟩ | heq
    · rw [heq]
      cases hdp : rs.board.last_draw_point with
      | none => rfl
      | some p =>
          exfalso
          have h2 := (hdraw (by simp [hdp])).1
          omega
    · rw [heq]
      rfl
  · rw [htick]
    rcases tickCounts_cases rs 0 with ⟨heq, hlfc⟩ | heq
    · rw [heq]
      cases hdp : rs.board.last_erase_point with
      | none => rfl
      | some p =>
          exfalso
          have h2 := herase (by simp [hdp])
          omega
    · rw [heq]
      rfl

/-- Witness for claim C8 at the initial state. -/
theorem no_hand_idle_tick_witness :
    (tick initState 1920 1080 none none 0).board.canvas =
      initState.board.canvas ∧
    (tick initState 1920 1080 none none 0).board.last_draw_point = none := by
  have h := no_hand_idle_tick initState Reachable.init 1920 1080 rfl rfl
  exact ⟨h.2.2.1, h.2.2.2.1⟩

/-- Claim C7: in a reachable hand-tracking session state, a frame whose
arbiter verdict is not Drawing ends with the draw slot absent, and likewise
for Erasing and the erase slot; an Idle frame with a present cursor (at
unchanged resolution) mutates no canvas pixels and ends with both slots
absent; and a Drawing or Erasing frame whose recorded slot point is farther
than the jump threshold stamps only the disk, starting a new stroke rather
than connecting a line. -/
theorem stroke_slot_invariant (rs : RunState) (hr : Reachable rs) (W H : ℕ)
    (hx hy : Option ℤ) (fc : ℕ) :
    (frameMode rs fc ≠ ActionMode.Drawing →
      (tick rs W H hx hy fc).board.last_draw_point = none) ∧
    (frameMode rs fc ≠ ActionMode.Erasing →
      (tick rs W H hx hy fc).board.last_erase_point = none) ∧
    (frameMode rs fc = ActionMode.Idle →
      rs.board.canvas.width = W → rs.board.canvas.height = H →
      truthy hx = true → truthy hy = true →
      (tick rs W H hx hy fc).board.canvas = rs.board.canvas ∧
      (tick rs W H hx hy fc).board.last_draw_point = none ∧
      (tick rs W H hx hy fc).board.last_erase_point = none) ∧
    (∀ x y : ℤ, ∀ p : ℤ × ℤ,
      frameMode rs fc = ActionMode.Drawing →
      hx = some x → hy = some y → x ≠ 0 → y ≠ 0 →
      rs.board.canvas.width = W → rs.board.canvas.height = H →
      rs.board.last_draw_point = some p → ¬ distSq p (x, y) < 100 ^ 2 →
      (tick rs W H hx hy fc).board.canvas.ops =
        rs.board.canvas.ops ++
          [CanvasOp.circle (x, y) rs.board.brush_size rs.board.current_color]) ∧
    (∀ x y : ℤ, ∀ p : ℤ × ℤ,
      frameMode rs fc = ActionMode.Erasing →
      hx = some x → hy = some y → x ≠ 0 → y ≠ 0 →
      rs.board.canvas.width = W → rs.board.canvas.height = H →
      rs.board.last_erase_point = some p → ¬ distSq p (x, y) < 100 ^ 2 →
      (tick rs W H hx hy fc).board.canvas.ops =
        rs.board.canvas.ops ++
          [CanvasOp.circle (x, y) rs.board.eraser_size backgroundColor]) := by
  obtain ⟨hfd, hfe, hdraw, herase⟩ := reachable_slotInv hr
  have hinv2 : SlotInv (tickCounts (tickResize rs W H) fc) :=
    slotInv_tickCounts fc (slotInv_tickResize W H ⟨hfd, hfe, hdraw, herase⟩)
  have hlfc2 : (tickCounts (tickResize rs W H) fc).last_finger_count = fc :=
    tickCounts_lfc _ _
  have hmode2 : (tickCounts (tickResize rs W H) fc).board.drawing_mode =
      rs.board.drawing_mode := by simp
  have hfd2 : (tickCounts (tickResize rs W H) fc).board.FINGERS_FOR_DRAW = 2 := by
    simp [hfd]
  have hfe2 : (tickCounts (tickResize rs W H) fc).board.FINGERS_FOR_ERASE = 4 := by
    simp [hfe]
  refine ⟨?_, ?_, ?_, ?_, ?_⟩
  · -- draw slot absent when the frame is not Drawing
    intro hm
    have hnd : ¬ (fc = 2 ∧ rs.board.drawing_mode = true) := by
      intro hc
      exact hm (by
        unfold frameMode
        rw [hfd, hfe]
        exact (specActionMode_drawing_iff 2 4 fc _).mpr hc)
    have hC : (tickCounts (tickResize rs W H) fc).board.last_draw_point = none := by
      by_contra hne
      obtain ⟨ha, hb⟩ := hinv2.2.2.1 hne
      exact hnd ⟨by omega, by rw [← hmode2]; exact hb⟩
    unfold tick
    cases hcur : (truthy hx && truthy hy) with
    | false => rw [tickGesture_nocursor hcur]; exact hC
    | true =>
      rw [Bool.and_eq_true] at hcur
      obtain ⟨x, hxs, hx0⟩ := truthy_eq_true hcur.1
      obtain ⟨y, hys, hy0⟩ := truthy_eq_true hcur.2
      subst hxs hys
      by_cases hfc2 : fc = 2
      · by_cases hmode : rs.board.drawing_mode = true
        · exact absurd ⟨hfc2, hmode⟩ hnd
        · rw [tickGesture_skip_branch hx0 hy0 (by rw [hfd2]; exact hfc2)
            (by rw [hmode2]; simpa using hmode)]
          exact hC
      · by_cases hge : 4 ≤ fc
        · rw [tickGesture_erase_branch hx0 hy0 (by rw [hfd2]; exact hfc2)
            (by rw [hfe2]; exact hge)]
          simpa using hC
        · rw [tickGesture_reset_branch hx0 hy0 (by rw [hfd2]; exact hfc2)
            (by rw [hfe2]; exact hge)]
          simp
  · -- erase slot absent when the frame is not Erasing
    intro hm
    have hne4 : ¬ (¬ (fc = 2 ∧ rs.board.drawing_mode = true) ∧ 4 ≤ fc) := by
      intro hc
      exact hm (by
        unfold frameMode
        rw [hfd, hfe]
        exact (specActionMode_erasing_iff 2 4 fc _).mpr hc)
    have hC : (tickCounts (tickResize rs W H) fc).board.last_erase_point = none := by
      by_contra hne
      have h4 := hinv2.2.2.2 hne
      have h4fc : 4 ≤ fc := by omega
      exact hne4 ⟨fun hc => by omega, h4fc⟩
    unfold tick
    cases hcur : (truthy hx && truthy hy) with
    | false => rw [tickGesture_nocursor hcur]; exact hC
    | true =>
      rw [Bool.and_eq_true] at hcur
      obtain ⟨x, hxs, hx0⟩ := truthy_eq_true hcur.1
      obtain ⟨y, hys, hy0⟩ := truthy_eq_true hcur.2
      subst hxs hys
      by_cases hfc2 : fc = 2
      · by_cases hmode : (tickCounts (tickResize rs W H) fc).board.drawing_mode = true
        · rw [tickGesture_draw_branch hx0 hy0 (by rw [hfd2]; exact hfc2) hmode]
          simpa using hC
        · rw [tickGesture_skip_branch hx0 hy0 (by rw [hfd2]; exact hfc2)
            (by simpa using hmode)]
          exact hC
      · by_cases hge : 4 ≤ fc
        · exact absurd ⟨fun hc => hfc2 hc.1, hge⟩ hne4
        · rw [tickGesture_reset_branch hx0 hy0 (by rw [hfd2]; exact hfc2)
            (by rw [hfe2]; exact hge)]
          simp
  · -- Idle frame with present cursor: no canvas mutation, both slots absent
    intro hm hwid hhei htx hty
    have hni := (specActionMode_idle_iff 2 4 fc rs.board.drawing_mode).mp (by
      unfold frameMode at hm
      rw [hfd, hfe] at hm
      exact hm)
    have hres : tickResize rs W H = rs := tickResize_eq_self hwid hhei
    have hCd : (tickCounts (tickResize rs W H) fc).board.last_draw_point = none := by
      by_contra hne
      obtain ⟨ha, hb⟩ := hinv2.2.2.1 hne
      exact hni.1 ⟨by omega, by rw [← hmode2]; exact hb⟩
    have hCe : (tickCounts (tickResize rs W H) fc).board.last_erase_point = none := by
      by_contra hne
      have h4 := hinv2.2.2.2 hne
      omega
    obtain ⟨x, hxs, hx0⟩ := truthy_eq_true htx
    obtain ⟨y, hys, hy0⟩ := truthy_eq_true hty
    subst hxs hys
    unfold tick
    by_cases hfc2 : fc = 2
    · have hmode : rs.board.drawing_mode = false := by
        cases hmd : rs.board.drawing_mode with
        | false => rfl
        | true => exact absurd ⟨hfc2, hmd⟩ hni.1
      rw [tickGesture_skip_branch hx0 hy0 (by rw [hfd2]; exact hfc2)
        (by rw [hmode2]; exact hmode)]
      refine ⟨by rw [tickCounts_canvas, hres], hCd, hCe⟩
    · have hge : ¬ 4 ≤ fc := by omega
      rw [tickGesture_reset_branch hx0 hy0 (by rw [hfd2]; exact hfc2)
        (by rw [hfe2]; exact hge)]
      refine ⟨by simp [hres], by simp, by simp⟩
  · -- Drawing frame with a far slot point: only the disk is stamped
    intro x y p hm hxs hys hx0 hy0 hwid hhei hslot hfar
    have hd := (specActionMode_drawing_iff 2 4 fc rs.board.drawing_mode).mp (by
      unfold frameMode at hm
      rw [hfd, hfe] at hm
      exact hm)
    have hres : tickResize rs W H = rs := tickResize_eq_self hwid hhei
    subst hxs hys
    unfold tick
    rw [hres]
    rw [tickGesture_draw_branch hx0 hy0 (by rw [tickCounts_fd, hfd]; exact hd.1)
      (by rw [tickCounts_mode]; exact hd.2)]
    rcases tickCounts_cases rs fc with ⟨heq, hlfc⟩ | heq
    · rw [heq]
      exact draw_ops_far hslot hfar
    · rw [heq]
      exact @draw_ops_none (reset_last_points rs.board) x y rfl
  · -- Erasing frame with a far slot point: only the background disk
    intro x y p hm hxs hys hx0 hy0 hwid hhei hslot hfar
    have hd := (specActionMode_erasing_iff 2 4 fc rs.board.drawing_mode).mp (by
      unfold frameMode at hm
      rw [hfd, hfe] at hm
      exact hm)
    have hres : tickResize rs W H = rs := tickResize_eq_self hwid hhei
    subst hxs hys
    unfold tick
    rw [hres]
    rw [tickGesture_erase_branch hx0 hy0
      (by rw [tickCounts_fd, hfd]; omega) (by rw [tickCounts_fe, hfe]; exact hd.2)]
    rcases tickCounts_cases rs fc with ⟨heq, hlfc⟩ | heq
    · rw [heq]
      exact erase_ops_far hslot hfar
    · rw [heq]
      exact @erase_ops_none (reset_last_points rs.board) x y rfl

/-- Witness for claim C7: in the initial state a 3-finger frame at cursor
(5, 6) is neither Drawing nor Erasing and ends with both slots absent. -/
theorem stroke_slot_invariant_witness :
    (tick initState 1920 1080 (some 5) (some 6) 3).board.last_draw_point = none ∧
    (tick initState 1920 1080 (some 5) (some 6) 3).board.last_erase_point = none := by
  have h := stroke_slot_invariant initState Reachable.init 1920 1080
    (some 5) (some 6) 3
  exact ⟨h.1 (by decide), h.2.1 (by decide)⟩

end GestureBoard
